import Mathlib

/-!
Verification of the `aochat` protocol engine (`lib/aochat/__init__.py`,
Python 2) against its natural-language specification.

The development is a shallow embedding: Python byte strings are `List Nat`
(each element a byte value), Python unbounded integers are `Nat`, 32-bit
wraparound arithmetic is explicit `% 2 ^ 32`, and raised exceptions become
`Except` / `Option` results.  The embedding fixes the usual little-endian
host platform: there `socket.ntohl` / `socket.htonl` are 32-bit byte swaps
and the native `struct` code `"I"` reads a 32-bit word little-endian.
-/

/-! ## Hexadecimal and decimal formatting primitives

`pyHex n` models the Python expression `"%x" % n` (lowercase, no leading
zeros, `"0"` for zero); `decLen n` models `len(str(n))`.  Both use a fuel
argument (the number itself suffices) so that they are structurally
recursive and kernel-reducible. -/

/-- Lowercase hexadecimal digit character for a value below 16. -/
def hexChar : Nat → Char
  | 0 => '0' | 1 => '1' | 2 => '2' | 3 => '3'
  | 4 => '4' | 5 => '5' | 6 => '6' | 7 => '7'
  | 8 => '8' | 9 => '9' | 10 => 'a' | 11 => 'b'
  | 12 => 'c' | 13 => 'd' | 14 => 'e' | _ => 'f'

/-- Numeric value of a hexadecimal digit character (as accepted by Python
`int(s, 16)` for the characters `pyHex` produces). -/
def hexCharVal : Char → Nat
  | '0' => 0 | '1' => 1 | '2' => 2 | '3' => 3
  | '4' => 4 | '5' => 5 | '6' => 6 | '7' => 7
  | '8' => 8 | '9' => 9 | 'a' => 10 | 'b' => 11
  | 'c' => 12 | 'd' => 13 | 'e' => 14 | 'f' => 15
  | _ => 0

/-- Fueled digit expansion for `pyHex`. -/
def pyHexAux : Nat → Nat → List Char
  | 0, _ => []
  | fuel + 1, n =>
    if n < 16 then [hexChar n]
    else pyHexAux fuel (n / 16) ++ [hexChar (n % 16)]

/-- Model of Python `"%x" % n`: lowercase hex digits, no leading zeros. -/
def pyHex (n : Nat) : String := ⟨pyHexAux (n + 1) n⟩

/-- Fueled digit count for `decLen`. -/
def decDigits : Nat → Nat → Nat
  | 0, _ => 1
  | fuel + 1, n => if n < 10 then 1 else 1 + decDigits fuel (n / 10)

/-- Model of Python `len(str(n))` for a nonnegative integer: the number of
decimal digits. -/
def decLen (n : Nat) : Nat := decDigits n n

/-- Model of Python `"%08x" % n` for `n < 2 ^ 32`: exactly eight lowercase
hex digits, zero padded (as a character list). -/
def pyHex8chars (n : Nat) : List Char :=
  [hexChar (n / 16 ^ 7 % 16), hexChar (n / 16 ^ 6 % 16),
   hexChar (n / 16 ^ 5 % 16), hexChar (n / 16 ^ 4 % 16),
   hexChar (n / 16 ^ 3 % 16), hexChar (n / 16 ^ 2 % 16),
   hexChar (n / 16 % 16), hexChar (n % 16)]

/-- Value of a big-endian string of hexadecimal digit characters, as Python
`int(s, 16)` computes it. -/
def hexVal (l : List Char) : Nat := l.foldl (fun acc c => 16 * acc + hexCharVal c) 0

/-- 32-bit byte swap: the effect of `socket.ntohl` / `socket.htonl` on a
little-endian host for a value below `2 ^ 32`. -/
def bswap32 (w : Nat) : Nat :=
  w % 256 * 2 ^ 24 + w / 2 ^ 8 % 256 * 2 ^ 16 + w / 2 ^ 16 % 256 * 2 ^ 8 + w / 2 ^ 24 % 256

/-- Split a character list into chunks of eight, as
`struct.unpack("8s" * n, s)` yields them (the trailing short chunk can only
arise when the length is not a multiple of eight). -/
def chunks8 : List Char → List (List Char)
  | c0 :: c1 :: c2 :: c3 :: c4 :: c5 :: c6 :: c7 :: rest =>
    [c0, c1, c2, c3, c4, c5, c6, c7] :: chunks8 rest
  | [] => []
  | l => [l]

/-- Bytes denoted by a hexadecimal digit string, two digits per byte. -/
def bytesOfHex : List Char → List Nat
  | c0 :: c1 :: rest => (16 * hexCharVal c0 + hexCharVal c1) :: bytesOfHex rest
  | _ => []

/-- Little-endian 32-bit words of a byte sequence: the effect of native
`struct.unpack("I" * k, s)` on a little-endian host. -/
def leWords : List Nat → List Nat
  | b0 :: b1 :: b2 :: b3 :: rest =>
    (b0 + b1 * 2 ^ 8 + b2 * 2 ^ 16 + b3 * 2 ^ 24) :: leWords rest
  | _ => []

/-- Big-endian 32-bit words of a byte sequence. -/
def beWords : List Nat → List Nat
  | b0 :: b1 :: b2 :: b3 :: rest =>
    (b0 * 2 ^ 24 + b1 * 2 ^ 16 + b2 * 2 ^ 8 + b3) :: beWords rest
  | _ => []

/-- Little-endian byte expansion of a 32-bit word. -/
def leBytes (w : Nat) : List Nat :=
  [w % 256, w / 2 ^ 8 % 256, w / 2 ^ 16 % 256, w / 2 ^ 24 % 256]

/-- Two lowercase hex digit characters of a byte value. -/
def hexPair (b : Nat) : List Char := [hexChar (b / 16), hexChar (b % 16)]

/-! ## TEA block cipher (`_tea_encrypt`) and its inverse -/

/-- TEA round constant `0x9E3779B9`. -/
def teaDelta : Nat := 0x9E3779B9

/-- Mixing value added to the first word in a TEA round
(`((b << 4 & 0xFFFFFFF0) + keys[0]) ^ (b + sum) ^ ((b >> 5 & 0x7FFFFFF) + keys[1])`,
masked to 32 bits). -/
def teaF0 (b sum : Nat) (keys : List Nat) : Nat :=
  ((b <<< 4 &&& 0xFFFFFFF0) + keys.getD 0 0 ^^^ (b + sum) ^^^
    ((b >>> 5 &&& 0x7FFFFFF) + keys.getD 1 0)) &&& 0xFFFFFFFF

/-- Mixing value added to the second word in a TEA round, using key words 2
and 3 and the freshly updated first word. -/
def teaF1 (a sum : Nat) (keys : List Nat) : Nat :=
  ((a <<< 4 &&& 0xFFFFFFF0) + keys.getD 2 0 ^^^ (a + sum) ^^^
    ((a >>> 5 &&& 0x7FFFFFF) + keys.getD 3 0)) &&& 0xFFFFFFFF

/-- The encryption loop of `_tea_encrypt`: `i` rounds, accumulating `sum`.
`x & 0xFFFFFFFF` on a nonnegative Python integer is written `% 2 ^ 32`. -/
def teaEncLoop : Nat → Nat → Nat × Nat → List Nat → Nat × Nat
  | 0, _, ab, _ => ab
  | i + 1, sum, ab, keys =>
    let sum1 := (sum + teaDelta) % 2 ^ 32
    let a1 := (ab.1 + teaF0 ab.2 sum1 keys) % 2 ^ 32
    let b1 := (ab.2 + teaF1 a1 sum1 keys) % 2 ^ 32
    teaEncLoop i sum1 (a1, b1) keys

/-- Model of `_tea_encrypt(cycle, keys)`: 32 TEA rounds. -/
def tea_encrypt (cycle : Nat × Nat) (keys : List Nat) : Nat × Nat :=
  teaEncLoop 32 0 cycle keys

/-- Subtraction modulo `2 ^ 32`. -/
def sub32 (x y : Nat) : Nat := (x + (2 ^ 32 - y % 2 ^ 32)) % 2 ^ 32

/-- Inverse of `teaEncLoop`, structured to undo the rounds in reverse
order: first undo the `i` later rounds, then the round at `sum + delta`. -/
def teaDecLoop : Nat → Nat → Nat × Nat → List Nat → Nat × Nat
  | 0, _, ab, _ => ab
  | i + 1, sum, ab, keys =>
    let sum1 := (sum + teaDelta) % 2 ^ 32
    let ab1 := teaDecLoop i sum1 ab keys
    let b0 := sub32 ab1.2 (teaF1 ab1.1 sum1 keys)
    let a0 := sub32 ab1.1 (teaF0 b0 sum1 keys)
    (a0, b0)

/-- TEA decryption: the inverse of `tea_encrypt`. -/
def tea_decrypt (cycle : Nat × Nat) (keys : List Nat) : Nat × Nat :=
  teaDecLoop 32 0 cycle keys

/-! ## CBC chaining (`_crypt`) -/

/-- Errors `_crypt` can raise: the explicit `ValueError` for a plaintext
whose length is not a multiple of 8; `struct.error` from
`struct.unpack("8s" * (len(str(key)) / 8), "%x" % key)` when the
hexadecimal representation's length differs from `8 * (len(str(key)) / 8)`;
and `IndexError` from `keys[2]` / `keys[3]` when fewer than four key words
were unpacked. -/
inductive CryptError
  | invalidLength
  | structError
  | indexError
deriving DecidableEq

/-- The CBC encryption loop of `_crypt` at the 32-bit-word level: each pair
of plaintext words is XORed with the previous TEA output (`result`,
initially `[0, 0]`) and encrypted. -/
def cbcEncryptWords (keys : List Nat) : List Nat → Nat × Nat → List Nat
  | d0 :: d1 :: rest, r =>
    let c := tea_encrypt (d0 ^^^ r.1, d1 ^^^ r.2) keys
    c.1 :: c.2 :: cbcEncryptWords keys rest c
  | _, _ => []

/-- Inverse of `cbcEncryptWords`: TEA-decrypt each pair of ciphertext words
and XOR with the previous ciphertext pair (zero for the first). -/
def cbcDecryptWords (keys : List Nat) : List Nat → Nat × Nat → List Nat
  | c0 :: c1 :: rest, r =>
    let d := tea_decrypt (c0, c1) keys
    (d.1 ^^^ r.1) :: (d.2 ^^^ r.2) :: cbcDecryptWords keys rest (c0, c1)
  | _, _ => []

/-- Model of `_crypt(key, plain)` on a little-endian host.

* the guard models `if len(plain) % 8 != 0: raise ValueError`;
* `keys` models `[socket.ntohl(int(s, 16)) for s in
  struct.unpack("8s" * (len(str(key)) / 8), "%x" % key)]` — `struct.unpack`
  raises `struct.error` unless the hex string's length is exactly eight
  times the repeat count, and `socket.ntohl` byte-swaps each word;
* `data` models native `struct.unpack("I" * (len(plain) / 4), plain)`;
* accessing `keys[2]` (or `keys[3]`) inside `_tea_encrypt` raises
  `IndexError` when fewer than four key words exist and at least one block
  is processed;
* each output word is rendered by `"%08x" % (socket.htonl(w) & 0xFFFFFFFF)`. -/
def _crypt (key : Nat) (plain : List Nat) : Except CryptError String :=
  if plain.length % 8 ≠ 0 then .error .invalidLength
  else
    let hs := (pyHex key).toList
    let n := decLen key / 8
    if hs.length ≠ 8 * n then .error .structError
    else
      let keys := (chunks8 hs).map (fun s => bswap32 (hexVal s))
      let data := leWords plain
      if data ≠ [] ∧ keys.length < 4 then .error .indexError
      else .ok ⟨(cbcEncryptWords keys data (0, 0)).flatMap (fun w => pyHex8chars (bswap32 w))⟩

/-- Modelled from the spec: the cipher as §4.1 words it, with every 32-bit
word treated as big-endian when converted between bytes and integer — key
words parsed big-endian from the hexadecimal representation, plaintext words
read big-endian, ciphertext words written big-endian.  Used to compare the
specified byte order with the code's. -/
def crypt_spec_be (key : Nat) (plain : List Nat) : Except CryptError String :=
  if plain.length % 8 ≠ 0 then .error .invalidLength
  else
    let keys := (chunks8 (pyHex key).toList).map hexVal
    let data := beWords plain
    .ok ⟨(cbcEncryptWords keys data (0, 0)).flatMap pyHex8chars⟩

/-- Modelled from the amended spec: the same cipher with every 32-bit word
treated as little-endian when converted between bytes and integer — key
words parsed little-endian from the sixteen key bytes, plaintext words read
little-endian, ciphertext words serialized as their little-endian bytes. -/
def crypt_spec_le (key : Nat) (plain : List Nat) : Except CryptError String :=
  if plain.length % 8 ≠ 0 then .error .invalidLength
  else
    let keys := leWords (bytesOfHex (pyHex key).toList)
    let data := leWords plain
    .ok ⟨((cbcEncryptWords keys data (0, 0)).flatMap leBytes).flatMap hexPair⟩

/-! ## Login key generation (`generate_login_key`) -/

/-- Protocol constant `dhY` of `generate_login_key`. -/
def dhY : Nat := 0x9C32CC23D559CA90FC31BE72DF817D0E124769E809F936BC14360FF4BED758F260A0D596584EACBBC2B88BDD410416163E11DBF62173393FBC0C6FEFB2D855F1A03DEC8E9F105BBAD91B3437D8EB73FE2F44159597AA4053CF788D2F9D7012FB8D7C4CE3876F7D6CD5D0C31754F4CD96166708641958DE54A6DEF5657B9F2E92

/-- Protocol constant `dhN` of `generate_login_key`. -/
def dhN : Nat := 0xECA2E8C85D863DCDC26A429A71A9815AD052F6139669DD659F98AE159D313D13C6BF2838E10A69B6478B64A24BD054BA8248E8FA778703B418408249440B2C1EDD28853E240D8A7E49540B76D120D3B1AD2878B1B99490EB4A2A5E84CAA8A91CECBDB1AA7C816E8BE343246F80C637ABC653B893FD91686CF8D32D6CFE5F2A6F

/-- Protocol constant `dhG` of `generate_login_key`. -/
def dhG : Nat := 5

/-- Model of `struct.pack(">Q", r)` for `r < 2 ^ 64`: eight big-endian
bytes. -/
def pack64be (r : Nat) : List Nat :=
  [r / 2 ^ 56 % 256, r / 2 ^ 48 % 256, r / 2 ^ 40 % 256, r / 2 ^ 32 % 256,
   r / 2 ^ 24 % 256, r / 2 ^ 16 % 256, r / 2 ^ 8 % 256, r % 256]

/-- Model of `struct.pack(">I", l)` for `l < 2 ^ 32`: four big-endian
bytes. -/
def pack32be (l : Nat) : List Nat :=
  [l / 2 ^ 24 % 256, l / 2 ^ 16 % 256, l / 2 ^ 8 % 256, l % 256]

/-- The challenge plaintext `generate_login_key` assembles: the 8-byte
nonce `struct.pack(">Q", randrange(2 ** 64))`, the 4-byte big-endian length
of `"<username>|<server_key>|<password>"`, that string, and space padding
(byte 32) to a multiple of eight bytes. -/
def challengePlain (nonce : Nat) (username server_key password : List Nat) : List Nat :=
  let challenge := username ++ [124] ++ server_key ++ [124] ++ password
  let length := 8 + 4 + challenge.length
  let pad := List.replicate ((8 - length % 8) % 8) 32
  pack64be nonce ++ pack32be challenge.length ++ challenge ++ pad

/-- Model of `generate_login_key(server_key, username, password)` with the
two random draws made explicit: `dhx` is `random.randrange(0, 2 ** 256)`
and `nonce` is `random.randrange(0, 2 ** 64)`.  `dhK` models
`int(("%x" % pow(dhY, dhx, dhN))[:32], 16)` and the result models
`"%0x-%s" % (dhX, _crypt(dhK, plain))`; exceptions raised by `_crypt`
propagate. -/
def generate_login_key (dhx nonce : Nat) (username server_key password : List Nat) :
    Except CryptError String :=
  let dhX := dhG ^ dhx % dhN
  let dhK := hexVal (((pyHex (dhY ^ dhx % dhN)).toList).take 32)
  match _crypt dhK (challengePlain nonce username server_key password) with
  | .ok c => .ok (pyHex dhX ++ "-" ++ c)
  | .error e => .error e

/-! ## Chat transport and session layer

The `Chat` class performs socket I/O.  A socket is modelled as a list of
receive events: each `recv` call consumes the head event, which is either a
delivered chunk of bytes (possibly shorter than requested), a
`socket.timeout`, or a `socket.error`; an exhausted list means the peer
closed the connection (`recv` returns the empty string).  Raised `ChatError`
and `UnexpectedPacket` exceptions become `PyError` values.

The packet classes (`AOSP_*` / `AOCP_*` in `aochat.core.packets`) are not
part of this source file; their numeric type ids and payload decoders enter
the definitions below as parameters, and packets sent by the client are
recorded abstractly as `ClientPacket` values. -/

/-- Exceptions the `Chat` methods raise: `ChatError` carries its message
string; `UnexpectedPacket` carries the packet type and the data it was
constructed from; a `CryptError` escaping `generate_login_key` propagates
unchanged; `typeError` is the uncaught `TypeError` raised when the
wrapped-error format `"Socket error %d: %s" % tuple(error)` is applied to
a `socket.timeout`'s one-argument tuple `('timed out',)`. -/
inductive PyError
  | chatError (msg : String)
  | unexpectedPacket (ptype : Nat) (raw : List Nat)
  | cryptFailure (e : CryptError)
  | typeError
deriving DecidableEq

/-- Message of the wrapped socket error
(`"Socket error %d: %s" % tuple(error)`). -/
def socketErrorMsg (code : Nat) (msg : String) : String :=
  "Socket error " ++ toString code ++ ": " ++ msg

/-- One receive event of the modelled socket. -/
inductive RecvEv
  | chunk (data : List Nat)
  | timeout
  | sockErr (code : Nat) (msg : String)
deriving DecidableEq

/-- Model of `Chat.__read_socket(bytes)`: loop until `bytes` bytes are
accumulated.  Each iteration calls `recv` (consume the head event); an
empty chunk or an exhausted stream raises
`ChatError("Connection broken.")`.  A `socket.error` carrying the usual
`(errno, strerror)` two-element argument tuple raises the wrapped
`ChatError("Socket error %d: %s" % tuple(error))`.  A `socket.timeout` is
caught by that same `except socket.error` clause — the clause is listed
first, and `socket.timeout` subclasses `socket.error` on Python 2.6+,
which `socket.create_connection` requires — where the two-specifier format
applied to the timeout's one-argument tuple `('timed out',)` raises an
uncaught `TypeError`; the source's later `except socket.timeout` clause
raising `ChatError("Connection timed out.")` is dead code.  On success the
accumulated bytes and the remaining stream are returned; a partially
consumed chunk stays at the head of the stream. -/
def readSocketE : Nat → List RecvEv → Except PyError (List Nat × List RecvEv)
  | 0, s => .ok ([], s)
  | _ + 1, [] => .error (.chatError "Connection broken.")
  | _ + 1, .timeout :: _ => .error .typeError
  | _ + 1, .sockErr code msg :: _ => .error (.chatError (socketErrorMsg code msg))
  | n + 1, .chunk c :: rest =>
    if c = [] then .error (.chatError "Connection broken.")
    else if n + 1 ≤ c.length then
      .ok (c.take (n + 1), if c.length = n + 1 then rest else .chunk (c.drop (n + 1)) :: rest)
    else
      match readSocketE (n + 1 - c.length) rest with
      | .ok (d, s1) => .ok (c ++ d, s1)
      | .error e => .error e

/-- All payload bytes a stream of receive events delivers, in order. -/
def streamBytes : List RecvEv → List Nat
  | [] => []
  | .chunk c :: rest => c ++ streamBytes rest
  | _ :: rest => streamBytes rest

/-- The four header bytes of a framed packet (`struct.pack(">2H", ...)`):
big-endian 16-bit type id and payload length. -/
def packHeader (ptype plen : Nat) : List Nat :=
  [ptype / 256, ptype % 256, plen / 256, plen % 256]

/-- A stream whose next traffic is one well-framed packet of type `ptype`
with the given payload, delivered as a single chunk, followed by `rest`. -/
def framed (ptype : Nat) (payload : List Nat) (rest : List RecvEv) : List RecvEv :=
  .chunk (packHeader ptype payload.length ++ payload) :: rest

/-- The framing part of `Chat.wait_packet`: read the 4-byte header, parse
`>2H`, read the payload.  (The catch-all arm is unreachable: a successful
4-byte read returns exactly four bytes.) -/
def readFrame (s : List RecvEv) : Except PyError ((Nat × List Nat) × List RecvEv) :=
  match readSocketE 4 s with
  | .error e => .error e
  | .ok (head, s1) =>
    match head with
    | [h0, h1, h2, h3] =>
      match readSocketE (h2 * 256 + h3) s1 with
      | .error e => .error e
      | .ok (payload, s2) => .ok ((h0 * 256 + h1, payload), s2)
    | _ => .error (.chatError "Connection broken.")

/-- A decoded packet object as produced by an entry of `SERVER_PACKETS`:
its `type` attribute and its decoded payload, kept abstract. -/
structure PacketVal where
  ptype : Nat
  fields : List Nat
deriving DecidableEq

/-- Result of `Chat.wait_packet()` with no `Expect`: either a packet built
by the registry, or — for a type id absent from `SERVER_PACKETS` — the
`UnexpectedPacket(packet_type, data)` value that `Chat.start` catches,
carrying the type id and the raw payload. -/
inductive WaitNC
  | known (p : PacketVal)
  | unknown (ptype : Nat) (raw : List Nat)
deriving DecidableEq

/-- Model of `Chat.wait_packet()` with no expected type: frame the packet,
then look its type up in the registry (`SERVER_PACKETS[packet_type](data)`,
whose `KeyError` becomes the `unknown` result). -/
def wait_packet_nc (registry : Nat → Option (List Nat → PacketVal)) (s : List RecvEv) :
    Except PyError (WaitNC × List RecvEv) :=
  match readFrame s with
  | .error e => .error e
  | .ok ((t, payload), s1) =>
    match registry t with
    | some mk => .ok (.known (mk payload), s1)
    | none => .ok (.unknown t payload, s1)

/-- Model of `Chat.wait_packet(Expect, Error)` with an expected type id:
an unexpected type raises `UnexpectedPacket(type, Error(data))` when it
matches the error type, else `ChatError("Unexpected error.")`. -/
def waitPacketExpect (expectT : Nat) (errT : Option Nat) (s : List RecvEv) :
    Except PyError ((Nat × List Nat) × List RecvEv) :=
  match readFrame s with
  | .error e => .error e
  | .ok ((t, payload), s1) =>
    if t = expectT then .ok ((t, payload), s1)
    else
      match errT with
      | some et =>
        if t = et then .error (.unexpectedPacket t payload)
        else .error (.chatError "Unexpected error.")
      | none => .error (.chatError "Unexpected error.")

/-- What one readable iteration of `Chat.start` does with the packet at the
head of the stream. -/
inductive LoopAction
  | dispatched (ptype : Nat)
  | skipped (ptype : Nat)
  | loggedUnknown (ptype : Nat) (raw : List Nat)
deriving DecidableEq

/-- Model of one `POLLIN` iteration of the `Chat.start` event loop:
`wait_packet()`; an `UnexpectedPacket` is printed and the loop continues
(`loggedUnknown`, no dispatch); a known packet is dispatched when
`packet.type in events` and skipped otherwise; any other exception
propagates and terminates the loop. -/
def loopStepIn (registry : Nat → Option (List Nat → PacketVal)) (events : Nat → Bool)
    (s : List RecvEv) : Except PyError (LoopAction × List RecvEv) :=
  match wait_packet_nc registry s with
  | .error e => .error e
  | .ok (.unknown t d, s1) => .ok (.loggedUnknown t d, s1)
  | .ok (.known p, s1) =>
    .ok (if events p.ptype then .dispatched p.ptype else .skipped p.ptype, s1)

/-- A packet the client sends, recorded abstractly (its wire encoding lives
in the external packet classes). -/
inductive ClientPacket
  | ping
  | login (characterId : Nat)
  | auth (username : List Nat) (loginKey : String)
deriving DecidableEq

/-- Outcome of the keep-alive branch of the event loop: the result of the
blocking wait for the pong, the packets sent, and the packets dispatched to
handlers (always none in this branch). -/
structure PingOutcome where
  result : Except PyError (List RecvEv)
  sent : List ClientPacket
  dispatched : List Nat

/-- Model of the `if not io_events: self.ping()` branch of `Chat.start`:
`Chat.ping` sends one `AOCP_PING` and blocks in
`wait_packet(AOSP_PING)` — with no error type, so any other packet type
raises `ChatError("Unexpected error.")`.  `pongT` is the `AOSP_PING` type
id.  No handler is consulted. -/
def pingStep (pongT : Nat) (s : List RecvEv) : PingOutcome :=
  match waitPacketExpect pongT none s with
  | .ok (_, s1) => ⟨.ok s1, [.ping], []⟩
  | .error e => ⟨.error e, [.ping], []⟩

/-- A character entry of the list decoded from `AOSP_CHARACTERS_LIST`. -/
structure Character where
  id : Nat
  name : List Nat
deriving DecidableEq

/-- The mutable session state of a `Chat` object: the stored character list
and the currently active character. -/
structure ChatState where
  characters : List Character
  character : Option Character
deriving DecidableEq

/-- Outcome of `Chat.login`: the object state afterwards, the exception
raised (if any), and the packets written to the socket. -/
structure LoginOutcome where
  post : ChatState
  failure : Option PyError
  sent : List ClientPacket

/-- Model of `Chat.login(character_id)`.  The `for ... else` lookup takes
the first stored character whose id equals `character_id` and raises
`ChatError("no valid characters to login.")` before sending anything when
there is none.  Otherwise `AOCP_LOGIN` is sent and the reply awaited with
expected type `loginOkT` (`AOSP_LOGIN_OK`) and error type `authErrT`
(`AOSP_AUTH_ERROR`, whose decoded `message` attribute is `msgOf` of the
payload); on success the found character becomes current. -/
def login (loginOkT authErrT : Nat) (msgOf : List Nat → String)
    (st : ChatState) (character_id : Nat) (s : List RecvEv) : LoginOutcome :=
  match st.characters.find? (fun c => character_id == c.id) with
  | none => ⟨st, some (.chatError "no valid characters to login."), []⟩
  | some ch =>
    match waitPacketExpect loginOkT (some authErrT) s with
    | .ok _ => ⟨{ st with character := some ch }, none, [.login character_id]⟩
    | .error (.unexpectedPacket _ raw) =>
      ⟨st, some (.chatError (msgOf raw)), [.login character_id]⟩
    | .error e => ⟨st, some e, [.login character_id]⟩

/-- Outcome of `Chat.__init__`: the constructed state on success, the
exception raised (if any), the packets sent, and whether any path called
`self.socket.close()` — the source never does, so the field is `false` on
every path. -/
structure InitOutcome where
  state : Option ChatState
  failure : Option PyError
  sent : List ClientPacket
  closed : Bool

/-- Model of `Chat.__init__`.  `connectErr` is the outcome of
`socket.create_connection`; then `wait_packet(AOSP_SEED)` (type id `seedT`,
no error type — so a wrong greeting raises `ChatError("Unexpected error.")`
and the `except UnexpectedPacket` clause is dead), then
`generate_login_key`, then `AOCP_AUTH` is sent and the reply awaited with
expected type `charListT` and error type `authErrT`.  `seedKeyOf`,
`charsOf` and `msgOf` are the external payload decoders
(`.server_key`, `.characters`, `.message`).  No path closes the socket. -/
def chatInit (seedT charListT authErrT : Nat)
    (seedKeyOf : List Nat → List Nat) (charsOf : List Nat → List Character)
    (msgOf : List Nat → String) (username password : List Nat)
    (dhx nonce : Nat) (connectErr : Option (Nat × String)) (s : List RecvEv) : InitOutcome :=
  match connectErr with
  | some (code, msg) => ⟨none, some (.chatError (socketErrorMsg code msg)), [], false⟩
  | none =>
    match waitPacketExpect seedT none s with
    | .error e => ⟨none, some e, [], false⟩
    | .ok ((_, seedPayload), s1) =>
      match generate_login_key dhx nonce username (seedKeyOf seedPayload) password with
      | .error ce => ⟨none, some (.cryptFailure ce), [], false⟩
      | .ok loginKey =>
        match waitPacketExpect charListT (some authErrT) s1 with
        | .ok ((_, payload), _) =>
          ⟨some ⟨charsOf payload, none⟩, none, [.auth username loginKey], false⟩
        | .error (.unexpectedPacket _ raw) =>
          ⟨none, some (.chatError (msgOf raw)), [.auth username loginKey], false⟩
        | .error e => ⟨none, some e, [.auth username loginKey], false⟩

/-- Readiness event `poll.poll` reports for the registered socket. -/
inductive PollEv
  | pollin
  | pollhup
  | pollerr
deriving DecidableEq

/-- How the `Chat.start` loop exits: `returned` on `POLLHUP`/`POLLERR`,
`interrupted` on the `KeyboardInterrupt` break, `failed` when an uncaught
exception propagates out of `start`. -/
inductive StartExit
  | returned
  | interrupted
  | failed (e : PyError)
deriving DecidableEq

/-- Outcome of one iteration of the `Chat.start` loop: how the loop exits
(`none` when it keeps polling) and whether the iteration called
`self.socket.close()` — the source never does. -/
structure StartStepOutcome where
  exit : Option StartExit
  closed : Bool
deriving DecidableEq

/-- Model of one iteration of the `Chat.start` polling loop.  `interrupt`
is a cooperative `KeyboardInterrupt` arriving during the iteration (caught
by the `except KeyboardInterrupt` clause, which breaks); `ev` is the
readiness event `poll.poll(ping_interval)` reported, `none` on timeout.
`POLLIN` handles one packet via the loop body (continuing also when the
packet type is unknown); `POLLHUP` and `POLLERR` print and return; a
timeout pings and blocks for the pong.  Exceptions raised by the packet
handling or the ping propagate and terminate the loop.  No branch closes
the socket. -/
def startIteration (registry : Nat → Option (List Nat → PacketVal))
    (events : Nat → Bool) (pongT : Nat) (interrupt : Bool)
    (ev : Option PollEv) (s : List RecvEv) : StartStepOutcome × List RecvEv :=
  if interrupt then (⟨some .interrupted, false⟩, s)
  else
    match ev with
    | some .pollin =>
      match loopStepIn registry events s with
      | .ok (_, s1) => (⟨none, false⟩, s1)
      | .error e => (⟨some (.failed e), false⟩, s)
    | some .pollhup => (⟨some .returned, false⟩, s)
    | some .pollerr => (⟨some .returned, false⟩, s)
    | none =>
      match (pingStep pongT s).result with
      | .ok s1 => (⟨none, false⟩, s1)
      | .error e => (⟨some (.failed e), false⟩, s)

/-! ## Theorems

First the block-cipher round trip (claim C2), then the byte-order analysis
of `_crypt` (claim C1), the padding invariant (C3), and the key-unpacking
failure (C10); the transport and session claims follow. -/

theorem sub32_add (a f : Nat) (h : a < 2 ^ 32) : sub32 ((a + f) % 2 ^ 32) f = a := by
  unfold sub32
  rw [Nat.add_mod a f, Nat.mod_eq_of_lt h, Nat.mod_add_mod]
  have hz : f % 2 ^ 32 < 2 ^ 32 := Nat.mod_lt _ (by norm_num)
  have he : a + f % 2 ^ 32 + (2 ^ 32 - f % 2 ^ 32) = a + 2 ^ 32 := by omega
  rw [he, Nat.add_mod_right, Nat.mod_eq_of_lt h]

theorem teaEncLoop_lt (i : Nat) :
    ∀ sum ab keys, ab.1 < 2 ^ 32 → ab.2 < 2 ^ 32 →
      (teaEncLoop i sum ab keys).1 < 2 ^ 32 ∧ (teaEncLoop i sum ab keys).2 < 2 ^ 32 := by
  induction i with
  | zero => exact fun sum ab keys h1 h2 => ⟨h1, h2⟩
  | succ i ih =>
    intro sum ab keys h1 h2
    simp only [teaEncLoop]
    exact ih _ _ _ (Nat.mod_lt _ (by norm_num)) (Nat.mod_lt _ (by norm_num))

theorem tea_encrypt_lt (ab : Nat × Nat) (keys : List Nat)
    (h1 : ab.1 < 2 ^ 32) (h2 : ab.2 < 2 ^ 32) :
    (tea_encrypt ab keys).1 < 2 ^ 32 ∧ (tea_encrypt ab keys).2 < 2 ^ 32 :=
  teaEncLoop_lt 32 0 ab keys h1 h2

theorem teaDecLoop_teaEncLoop (i : Nat) :
    ∀ sum a b keys, a < 2 ^ 32 → b < 2 ^ 32 →
      teaDecLoop i sum (teaEncLoop i sum (a, b) keys) keys = (a, b) := by
  induction i with
  | zero => intro sum a b keys h1 h2; rfl
  | succ i ih =>
    intro sum a b keys h1 h2
    simp only [teaEncLoop, teaDecLoop]
    rw [ih _ _ _ keys (Nat.mod_lt _ (by norm_num)) (Nat.mod_lt _ (by norm_num))]
    dsimp only
    rw [sub32_add b _ h2, sub32_add a _ h1]

theorem tea_decrypt_tea_encrypt (a b : Nat) (keys : List Nat)
    (h1 : a < 2 ^ 32) (h2 : b < 2 ^ 32) :
    tea_decrypt (tea_encrypt (a, b) keys) keys = (a, b) :=
  teaDecLoop_teaEncLoop 32 0 a b keys h1 h2

theorem cbcDecrypt_cbcEncrypt (keys : List Nat) :
    ∀ (data : List Nat) (r : Nat × Nat),
      (∀ w ∈ data, w < 2 ^ 32) → data.length % 2 = 0 →
      r.1 < 2 ^ 32 → r.2 < 2 ^ 32 →
      cbcDecryptWords keys (cbcEncryptWords keys data r) r = data := by
  intro data r
  induction data, r using cbcEncryptWords.induct keys with
  | case1 d0 d1 rest r c ih =>
    intro hw he h1 h2
    rw [show c = tea_encrypt (d0 ^^^ r.1, d1 ^^^ r.2) keys from rfl] at ih
    have hd0 : d0 < 2 ^ 32 := hw d0 (by simp)
    have hd1 : d1 < 2 ^ 32 := hw d1 (by simp)
    have hx0 : d0 ^^^ r.1 < 2 ^ 32 := Nat.xor_lt_two_pow hd0 h1
    have hx1 : d1 ^^^ r.2 < 2 ^ 32 := Nat.xor_lt_two_pow hd1 h2
    have hc := tea_encrypt_lt (d0 ^^^ r.1, d1 ^^^ r.2) keys hx0 hx1
    have hih := ih (fun w hwmem => hw w (by simp [hwmem]))
      (by simp only [List.length_cons] at he; omega) hc.1 hc.2
    simp only [cbcEncryptWords, cbcDecryptWords]
    rw [show ((tea_encrypt (d0 ^^^ r.1, d1 ^^^ r.2) keys).1,
          (tea_encrypt (d0 ^^^ r.1, d1 ^^^ r.2) keys).2) =
        tea_encrypt (d0 ^^^ r.1, d1 ^^^ r.2) keys from rfl,
      tea_decrypt_tea_encrypt _ _ keys hx0 hx1, hih]
    simp [Nat.xor_cancel_right]
  | case2 data r hshape =>
    intro hw he h1 h2
    match data, hshape, he with
    | [], _, _ => rfl
    | [d], _, he2 => simp at he2
    | d0 :: d1 :: rest, hshape2, _ => exact (hshape2 d0 d1 rest rfl).elim

/-- C2: CBC-TEA round-trip — for every plaintext word sequence whose length
is a multiple of two 32-bit words (8 bytes) and every key, applying the
inverse transformation (TEA decrypt of each block, then XOR with the
previous ciphertext block, a zero block first) to the ciphertext block
sequence produced by the CBC loop of `_crypt` reproduces the plaintext
exactly. -/
theorem C2_cbc_tea_roundtrip (keys data : List Nat)
    (hw : ∀ w ∈ data, w < 2 ^ 32) (he : data.length % 2 = 0) :
    cbcDecryptWords keys (cbcEncryptWords keys data (0, 0)) (0, 0) = data :=
  cbcDecrypt_cbcEncrypt keys data (0, 0) hw he (by norm_num) (by norm_num)

/-- Witness for C2 at a concrete key and plaintext. -/
theorem C2_cbc_tea_roundtrip_witness :
    (∀ w ∈ [(5 : Nat), 6, 7, 8], w < 2 ^ 32) ∧ ([(5 : Nat), 6, 7, 8].length % 2 = 0) ∧
    cbcDecryptWords [1, 2, 3, 4] (cbcEncryptWords [1, 2, 3, 4] [5, 6, 7, 8] (0, 0)) (0, 0) =
      [5, 6, 7, 8] :=
  ⟨by decide, by decide, C2_cbc_tea_roundtrip [1, 2, 3, 4] [5, 6, 7, 8] (by decide) (by decide)⟩

theorem hexCharVal_hexChar_lt (k : Nat) : hexCharVal (hexChar k) < 16 := by
  unfold hexChar
  split <;> decide

theorem pyHexAux_val_lt (fuel : Nat) :
    ∀ n c, c ∈ pyHexAux fuel n → hexCharVal c < 16 := by
  induction fuel with
  | zero => intro n c h; simp [pyHexAux] at h
  | succ fuel ih =>
    intro n c h
    simp only [pyHexAux] at h
    by_cases hn : n < 16
    · simp [hn] at h
      exact h ▸ hexCharVal_hexChar_lt n
    · simp only [hn, if_false, List.mem_append, List.mem_singleton] at h
      rcases h with h | h
      · exact ih _ _ h
      · exact h ▸ hexCharVal_hexChar_lt (n % 16)

theorem chunks8_map_bswap_eq_leWords :
    ∀ l : List Char, (∀ c ∈ l, hexCharVal c < 16) → l.length % 8 = 0 →
      (chunks8 l).map (fun s => bswap32 (hexVal s)) = leWords (bytesOfHex l) := by
  intro l
  induction l using chunks8.induct with
  | case1 c0 c1 c2 c3 c4 c5 c6 c7 rest ih =>
    intro hv hl
    have h0 := hv c0 (by simp); have h1 := hv c1 (by simp)
    have h2 := hv c2 (by simp); have h3 := hv c3 (by simp)
    have h4 := hv c4 (by simp); have h5 := hv c5 (by simp)
    have h6 := hv c6 (by simp); have h7 := hv c7 (by simp)
    simp only [chunks8, List.map_cons, bytesOfHex, leWords]
    rw [ih (fun c hc => hv c (by simp [hc]))
      (by simp only [List.length_cons] at hl; omega)]
    congr 1
    simp only [hexVal, List.foldl]
    unfold bswap32
    omega
  | case2 => intro _ _; rfl
  | case3 l hA hB =>
    intro hv hl
    exfalso
    rcases l with _ | ⟨a0, _ | ⟨a1, _ | ⟨a2, _ | ⟨a3, _ | ⟨a4, _ | ⟨a5, _ | ⟨a6, _ | ⟨a7, rest⟩⟩⟩⟩⟩⟩⟩⟩
    · exact hB rfl
    · simp at hl
    · simp at hl
    · simp at hl
    · simp at hl
    · simp at hl
    · simp at hl
    · simp at hl
    · exact hA a0 a1 a2 a3 a4 a5 a6 a7 rest rfl

theorem chunks8_length :
    ∀ l : List Char, l.length % 8 = 0 → (chunks8 l).length = l.length / 8 := by
  intro l
  induction l using chunks8.induct with
  | case1 c0 c1 c2 c3 c4 c5 c6 c7 rest ih =>
    intro hl
    simp only [chunks8, List.length_cons]
    rw [ih (by simp only [List.length_cons] at hl; omega)]
    omega
  | case2 => intro _; rfl
  | case3 l hA hB =>
    intro hl
    exfalso
    rcases l with _ | ⟨a0, _ | ⟨a1, _ | ⟨a2, _ | ⟨a3, _ | ⟨a4, _ | ⟨a5, _ | ⟨a6, _ | ⟨a7, rest⟩⟩⟩⟩⟩⟩⟩⟩
    · exact hB rfl
    · simp at hl
    · simp at hl
    · simp at hl
    · simp at hl
    · simp at hl
    · simp at hl
    · simp at hl
    · exact hA a0 a1 a2 a3 a4 a5 a6 a7 rest rfl

theorem pyHex8_of_bytes (c0 c1 c2 c3 : Nat) (h0 : c0 < 256) (h1 : c1 < 256)
    (h2 : c2 < 256) (h3 : c3 < 256) :
    pyHex8chars (c0 * 2 ^ 24 + c1 * 2 ^ 16 + c2 * 2 ^ 8 + c3) =
      hexPair c0 ++ hexPair c1 ++ hexPair c2 ++ hexPair c3 := by
  have e0 : (c0 * 2 ^ 24 + c1 * 2 ^ 16 + c2 * 2 ^ 8 + c3) / 16 ^ 7 % 16 = c0 / 16 := by omega
  have e1 : (c0 * 2 ^ 24 + c1 * 2 ^ 16 + c2 * 2 ^ 8 + c3) / 16 ^ 6 % 16 = c0 % 16 := by omega
  have e2 : (c0 * 2 ^ 24 + c1 * 2 ^ 16 + c2 * 2 ^ 8 + c3) / 16 ^ 5 % 16 = c1 / 16 := by omega
  have e3 : (c0 * 2 ^ 24 + c1 * 2 ^ 16 + c2 * 2 ^ 8 + c3) / 16 ^ 4 % 16 = c1 % 16 := by omega
  have e4 : (c0 * 2 ^ 24 + c1 * 2 ^ 16 + c2 * 2 ^ 8 + c3) / 16 ^ 3 % 16 = c2 / 16 := by omega
  have e5 : (c0 * 2 ^ 24 + c1 * 2 ^ 16 + c2 * 2 ^ 8 + c3) / 16 ^ 2 % 16 = c2 % 16 := by omega
  have e6 : (c0 * 2 ^ 24 + c1 * 2 ^ 16 + c2 * 2 ^ 8 + c3) / 16 % 16 = c3 / 16 := by omega
  have e7 : (c0 * 2 ^ 24 + c1 * 2 ^ 16 + c2 * 2 ^ 8 + c3) % 16 = c3 % 16 := by omega
  simp only [pyHex8chars, hexPair, e0, e1, e2, e3, e4, e5, e6, e7,
    List.cons_append, List.nil_append]

theorem pyHex8chars_bswap32 (w : Nat) :
    pyHex8chars (bswap32 w) = (leBytes w).flatMap hexPair := by
  have hb := pyHex8_of_bytes (w % 256) (w / 2 ^ 8 % 256) (w / 2 ^ 16 % 256) (w / 2 ^ 24 % 256)
    (by omega) (by omega) (by omega) (by omega)
  simp only [leBytes, List.flatMap_cons, List.flatMap_nil, List.append_nil]
  rw [show bswap32 w = w % 256 * 2 ^ 24 + w / 2 ^ 8 % 256 * 2 ^ 16 +
    w / 2 ^ 16 % 256 * 2 ^ 8 + w / 2 ^ 24 % 256 from rfl, hb]
  simp [List.append_assoc]

/-- C1 (amended): under the conditions in which `generate_login_key` calls
it (a key whose hexadecimal representation has 32 digits and whose decimal
representation has at least 32 digits, and a plaintext that is a multiple
of eight bytes), `_crypt` equals the cipher with every 32-bit word treated
as LITTLE-endian in the byte/integer conversions — not big-endian as the
spec claims: on a little-endian host `socket.ntohl`/`socket.htonl`
byte-swap the big-endian-parsed key words, and native `struct` `"I"` reads
the plaintext words little-endian. -/
theorem C1_crypt_word_order (key : Nat) (plain : List Nat)
    (hk : (pyHex key).toList.length = 32) (hd : decLen key / 8 = 4)
    (hp : plain.length % 8 = 0) :
    _crypt key plain = crypt_spec_le key plain := by
  have hguard1 : ¬(plain.length % 8 ≠ 0) := by omega
  have hguard2 : ¬((pyHex key).toList.length ≠ 8 * (decLen key / 8)) := by
    rw [hk, hd]; norm_num
  have hchunks : (chunks8 (pyHex key).toList).length = 4 := by
    rw [chunks8_length _ (by rw [hk]), hk]
  have hguard3 : ¬(leWords plain ≠ [] ∧
      ((chunks8 (pyHex key).toList).map (fun s => bswap32 (hexVal s))).length < 4) := by
    rw [List.length_map, hchunks]
    intro hcon
    exact absurd hcon.2 (by omega)
  have hv : ∀ c ∈ (pyHex key).toList, hexCharVal c < 16 :=
    fun c hc => pyHexAux_val_lt (key + 1) key c hc
  simp only [_crypt, crypt_spec_le, if_neg hguard1, if_neg hguard2, if_neg hguard3]
  rw [List.flatMap_assoc, chunks8_map_bswap_eq_leWords _ hv (by rw [hk])]
  exact congrArg (fun l => Except.ok (String.mk l))
    (List.flatMap_congr (fun w _ => pyHex8chars_bswap32 w))

/-- Witness for C1's amended theorem at the key `generate_login_key`
derives for private exponent 1 and the challenge plaintext for username
`"u"`, server seed `"s"`, password `"p"`, nonce 0. -/
theorem C1_crypt_word_order_witness :
    ((pyHex 0x9C32CC23D559CA90FC31BE72DF817D0E).toList.length = 32 ∧
     decLen 0x9C32CC23D559CA90FC31BE72DF817D0E / 8 = 4 ∧
     (challengePlain 0 [117] [115] [112]).length % 8 = 0) ∧
    _crypt 0x9C32CC23D559CA90FC31BE72DF817D0E (challengePlain 0 [117] [115] [112]) =
      crypt_spec_le 0x9C32CC23D559CA90FC31BE72DF817D0E (challengePlain 0 [117] [115] [112]) :=
  ⟨⟨by decide, by decide, by decide⟩,
   C1_crypt_word_order _ _ (by decide) (by decide) (by decide)⟩

/-- Counterexample to C1 as stated: at the very key `generate_login_key`
derives for private exponent 1 (the most-significant 32 hex digits of
`dhY ^ 1 mod dhN`) and a real challenge plaintext, `_crypt` differs from
the cipher that treats every 32-bit word as big-endian in the
byte/integer conversions. -/
theorem C1_counterexample :
    _crypt 0x9C32CC23D559CA90FC31BE72DF817D0E (challengePlain 0 [117] [115] [112]) =
      .ok "0f1cb3a948928a1eac8c6db7ef21da5b477c825f2e086dc5" ∧
    crypt_spec_be 0x9C32CC23D559CA90FC31BE72DF817D0E (challengePlain 0 [117] [115] [112]) =
      .ok "234e4b1f6b567f2d4b275add398c9e57b3d83b51318ef41e" ∧
    ("0f1cb3a948928a1eac8c6db7ef21da5b477c825f2e086dc5" : String) ≠
      "234e4b1f6b567f2d4b275add398c9e57b3d83b51318ef41e" :=
  ⟨rfl, rfl, by decide⟩

/-- C3: for every username, server seed, password and nonce, the challenge
plaintext assembled by `generate_login_key` has a length that is a multiple
of eight bytes, so `_crypt` never raises its invalid-plaintext-length error
on it. -/
theorem C3_challenge_plain_aligned (nonce : Nat) (username server_key password : List Nat) :
    (challengePlain nonce username server_key password).length % 8 = 0 ∧
    ∀ key, _crypt key (challengePlain nonce username server_key password) ≠
      .error .invalidLength := by
  have hlen : (challengePlain nonce username server_key password).length % 8 = 0 := by
    simp only [challengePlain, pack64be, pack32be, List.length_append, List.length_cons,
      List.length_replicate, List.length_nil]
    omega
  refine ⟨hlen, fun key => ?_⟩
  simp only [_crypt]
  rw [if_neg (by omega)]
  split
  · simp
  · split
    · simp
    · simp

/-- C10: the private exponent 0 lies in the sampled range, makes the shared
secret equal 1 (one hexadecimal digit, one decimal digit), and makes
`generate_login_key` raise `struct.error` from the key-word unpacking in
`_crypt` instead of returning a login-key string. -/
theorem C10_zero_exponent_struct_error :
    (0 : Nat) < 2 ^ 256 ∧
    generate_login_key 0 0 [117] [115] [112] = .error .structError :=
  ⟨by norm_num, rfl⟩

theorem readSocketE_chunks : ∀ (s : List RecvEv) (n : Nat),
    (∀ e ∈ s, ∃ c, e = RecvEv.chunk c ∧ c ≠ []) →
    ((n ≤ (streamBytes s).length →
      ∃ s1, readSocketE n s = .ok ((streamBytes s).take n, s1)) ∧
     ((streamBytes s).length < n →
      readSocketE n s = .error (.chatError "Connection broken."))) := by
  intro s
  induction s with
  | nil =>
    intro n hwf
    refine ⟨fun hle => ?_, fun hlt => ?_⟩
    · cases n with
      | zero => exact ⟨[], rfl⟩
      | succ n => simp [streamBytes] at hle
    · cases n with
      | zero => simp [streamBytes] at hlt
      | succ n => rfl
  | cons e rest ih =>
    intro n hwf
    obtain ⟨c, rfl, hc⟩ := hwf e (by simp)
    have hwf2 : ∀ e2 ∈ rest, ∃ c2, e2 = RecvEv.chunk c2 ∧ c2 ≠ [] :=
      fun e2 he2 => hwf e2 (by simp [he2])
    refine ⟨fun hle => ?_, fun hlt => ?_⟩
    · cases n with
      | zero => exact ⟨_, rfl⟩
      | succ n =>
        simp only [readSocketE]
        rw [if_neg hc]
        by_cases hlen : n + 1 ≤ c.length
        · rw [if_pos hlen]
          have ht : (streamBytes (RecvEv.chunk c :: rest)).take (n + 1) = c.take (n + 1) := by
            simp only [streamBytes]
            rw [List.take_append_eq_append_take, Nat.sub_eq_zero_of_le hlen]
            simp
          rw [ht]
          exact ⟨_, rfl⟩
        · rw [if_neg hlen]
          have hle2 : n + 1 - c.length ≤ (streamBytes rest).length := by
            simp only [streamBytes, List.length_append] at hle
            omega
          obtain ⟨s1, hs1⟩ := (ih (n + 1 - c.length) hwf2).1 hle2
          rw [hs1]
          have ht : (streamBytes (RecvEv.chunk c :: rest)).take (n + 1) =
              c ++ (streamBytes rest).take (n + 1 - c.length) := by
            simp only [streamBytes]
            rw [List.take_append_eq_append_take,
              List.take_of_length_le (by omega : c.length ≤ n + 1)]
          rw [ht]
          exact ⟨s1, rfl⟩
    · cases n with
      | zero => exact absurd hlt (by omega)
      | succ n =>
        simp only [readSocketE]
        rw [if_neg hc]
        have hlen : ¬(n + 1 ≤ c.length) := by
          simp only [streamBytes, List.length_append] at hlt
          omega
        rw [if_neg hlen]
        have hlt2 : (streamBytes rest).length < n + 1 - c.length := by
          simp only [streamBytes, List.length_append] at hlt
          omega
        rw [(ih (n + 1 - c.length) hwf2).2 hlt2]

/-- C4: the transport read loop is chunk-invariant — for a requested byte
count `n`, two streams of nonempty chunks delivering the same bytes give
`__read_socket` results with identical returned data; a successful read
returns exactly the first `n` delivered bytes; and when the stream is
exhausted before `n` bytes arrive (a zero-length `recv`), the read fails
with `ChatError("Connection broken.")`. -/
theorem C4_read_socket_chunk_invariant (n : Nat) (s1 s2 : List RecvEv)
    (h1 : ∀ e ∈ s1, ∃ c, e = RecvEv.chunk c ∧ c ≠ [])
    (h2 : ∀ e ∈ s2, ∃ c, e = RecvEv.chunk c ∧ c ≠ [])
    (hsame : streamBytes s1 = streamBytes s2) :
    (readSocketE n s1).map Prod.fst = (readSocketE n s2).map Prod.fst ∧
    (∀ d s', readSocketE n s1 = .ok (d, s') →
      d.length = n ∧ d = (streamBytes s1).take n) ∧
    ((streamBytes s1).length < n →
      readSocketE n s1 = .error (.chatError "Connection broken.")) := by
  refine ⟨?_, ?_, (readSocketE_chunks s1 n h1).2⟩
  · by_cases hle : n ≤ (streamBytes s1).length
    · obtain ⟨t1, e1⟩ := (readSocketE_chunks s1 n h1).1 hle
      obtain ⟨t2, e2⟩ := (readSocketE_chunks s2 n h2).1 (by rw [← hsame]; exact hle)
      rw [e1, e2, hsame]
      rfl
    · push_neg at hle
      rw [(readSocketE_chunks s1 n h1).2 hle,
        (readSocketE_chunks s2 n h2).2 (by rw [← hsame]; exact hle)]
  · intro d s' hok
    rcases le_or_lt n (streamBytes s1).length with hle | hlt
    · obtain ⟨t1, e1⟩ := (readSocketE_chunks s1 n h1).1 hle
      rw [e1] at hok
      simp only [Except.ok.injEq, Prod.mk.injEq] at hok
      obtain ⟨hd, -⟩ := hok
      subst hd
      refine ⟨?_, rfl⟩
      rw [List.length_take]
      omega
    · rw [(readSocketE_chunks s1 n h1).2 hlt] at hok
      exact absurd hok (by simp)

/-- Witness for C4 at the same two bytes delivered as two chunks versus a
single chunk. -/
theorem C4_read_socket_chunk_invariant_witness :
    streamBytes [RecvEv.chunk [1], RecvEv.chunk [2, 3]] =
      streamBytes [RecvEv.chunk [1, 2, 3]] ∧
    (readSocketE 2 [RecvEv.chunk [1], RecvEv.chunk [2, 3]]).map Prod.fst =
      (readSocketE 2 [RecvEv.chunk [1, 2, 3]]).map Prod.fst :=
  ⟨rfl,
   (C4_read_socket_chunk_invariant 2 [RecvEv.chunk [1], RecvEv.chunk [2, 3]]
      [RecvEv.chunk [1, 2, 3]]
      (by intro e he
          simp only [List.mem_cons, List.not_mem_nil, or_false] at he
          rcases he with rfl | rfl
          exacts [⟨[1], rfl, by decide⟩, ⟨[2, 3], rfl, by decide⟩])
      (by intro e he
          simp only [List.mem_cons, List.not_mem_nil, or_false] at he
          subst he
          exact ⟨[1, 2, 3], rfl, by decide⟩)
      rfl).1⟩

/-- C8: the claim matches the source's dead `except socket.timeout` clause,
but the code as it runs diverges — a recv timeout is caught by the
preceding `except socket.error` clause, whose two-specifier format applied
to the timeout's one-argument tuple raises an uncaught `TypeError`, so a
timed-out read never fails with `ChatError("Connection timed out.")`.
Evaluated on a read of three bytes that receives one byte and then times
out. -/
theorem C8_timeout_raises_typeerror :
    readSocketE 3 [RecvEv.chunk [9], RecvEv.timeout] = .error .typeError ∧
    PyError.typeError ≠ PyError.chatError "Connection timed out." :=
  ⟨rfl, by decide⟩

theorem readSocketE_chunk_all (c : List Nat) (rest : List RecvEv) (hc : c ≠ []) :
    readSocketE c.length (.chunk c :: rest) = .ok (c, rest) := by
  cases c with
  | nil => exact absurd rfl hc
  | cons b bs =>
    show readSocketE (bs.length + 1) (.chunk (b :: bs) :: rest) = .ok (b :: bs, rest)
    simp only [readSocketE]
    rw [if_neg (by simp), if_pos (by simp), if_pos (by simp)]
    rw [show bs.length + 1 = (b :: bs).length from rfl, List.take_length]

theorem readSocketE_chunk_prefix (pre suf : List Nat) (rest : List RecvEv)
    (hpre : pre ≠ []) (hsuf : suf ≠ []) :
    readSocketE pre.length (.chunk (pre ++ suf) :: rest) = .ok (pre, .chunk suf :: rest) := by
  cases pre with
  | nil => exact absurd rfl hpre
  | cons b bs =>
    have htake := List.take_left (b :: bs) suf
    have hdrop := List.drop_left (b :: bs) suf
    rw [show (b :: bs).length = bs.length + 1 from rfl] at htake hdrop
    simp only [List.cons_append] at htake hdrop
    show readSocketE (bs.length + 1) (.chunk (b :: (bs ++ suf)) :: rest) = _
    simp only [readSocketE]
    rw [if_neg (by simp)]
    rw [if_pos (by simp only [List.length_cons, List.length_append]; omega)]
    rw [if_neg (by
      simp only [List.length_cons, List.length_append]
      have hpos : 0 < suf.length := List.length_pos.mpr hsuf
      omega)]
    rw [htake, hdrop]

theorem readFrame_framed (t : Nat) (payload : List Nat) (rest : List RecvEv) :
    readFrame (framed t payload rest) = .ok ((t, payload), rest) := by
  have hparse_t : t / 256 * 256 + t % 256 = t := by omega
  cases payload with
  | nil =>
    have h4 : readSocketE 4 (RecvEv.chunk (packHeader t 0) :: rest) =
        .ok (packHeader t 0, rest) :=
      readSocketE_chunk_all (packHeader t 0) rest (by simp [packHeader])
    simp only [readFrame, framed, List.length_nil, List.append_nil]
    rw [h4]
    simp only [packHeader]
    rw [show readSocketE (0 / 256 * 256 + 0 % 256) rest = .ok ([], rest) by
      cases rest with
      | nil => rfl
      | cons e rest2 => cases e <;> rfl, hparse_t]
  | cons p ps =>
    have hhdlen : (packHeader t (p :: ps).length).length = 4 := rfl
    have h4 : readSocketE 4
        (RecvEv.chunk (packHeader t (p :: ps).length ++ (p :: ps)) :: rest) =
        .ok (packHeader t (p :: ps).length, .chunk (p :: ps) :: rest) := by
      rw [← hhdlen]
      exact readSocketE_chunk_prefix _ _ rest (by simp [packHeader]) (by simp)
    have hparse_l : (p :: ps).length / 256 * 256 + (p :: ps).length % 256 =
        (p :: ps).length := by omega
    have hall : readSocketE ((p :: ps).length / 256 * 256 + (p :: ps).length % 256)
        (RecvEv.chunk (p :: ps) :: rest) = .ok (p :: ps, rest) := by
      rw [hparse_l]
      exact readSocketE_chunk_all (p :: ps) rest (by simp)
    simp only [readFrame, framed]
    rw [h4]
    simp only [packHeader]
    rw [hall, hparse_t]

/-- C6: a well-framed packet whose type id is absent from the server-packet
registry decodes to the `unknown` result carrying the type id and the raw
payload bytes rather than failing, and the event loop's readable iteration
logs it and continues — it returns successfully with the stream advanced
past the packet, dispatching nothing. -/
theorem C6_unknown_packet_logged (registry : Nat → Option (List Nat → PacketVal))
    (events : Nat → Bool) (ptype : Nat) (payload : List Nat) (rest : List RecvEv)
    (habsent : registry ptype = none) :
    wait_packet_nc registry (framed ptype payload rest) =
      .ok (.unknown ptype payload, rest) ∧
    loopStepIn registry events (framed ptype payload rest) =
      .ok (.loggedUnknown ptype payload, rest) := by
  have hw : wait_packet_nc registry (framed ptype payload rest) =
      .ok (.unknown ptype payload, rest) := by
    simp only [wait_packet_nc, readFrame_framed, habsent]
  exact ⟨hw, by simp only [loopStepIn, hw]⟩

/-- Witness for C6 with an empty registry and a concrete framed packet. -/
theorem C6_unknown_packet_logged_witness :
    (fun _ : Nat => (none : Option (List Nat → PacketVal))) 77 = none ∧
    loopStepIn (fun _ => none) (fun _ => true) (framed 77 [1, 2] []) =
      .ok (.loggedUnknown 77 [1, 2], []) :=
  ⟨rfl, (C6_unknown_packet_logged (fun _ => none) (fun _ => true) 77 [1, 2] [] rfl).2⟩

/-- C7: when the poll times out, the event loop sends exactly one ping and
blocks for the matching pong before resuming; the pong is never dispatched
to a handler; and a packet of any different type arriving while waiting
fails the loop with `ChatError("Unexpected error.")`. -/
theorem C7_keepalive_ping (pongT t : Nat) (payload : List Nat) (rest : List RecvEv) :
    (pingStep pongT (framed t payload rest)).sent = [.ping] ∧
    (pingStep pongT (framed t payload rest)).dispatched = [] ∧
    (t = pongT → (pingStep pongT (framed t payload rest)).result = .ok rest) ∧
    (t ≠ pongT → (pingStep pongT (framed t payload rest)).result =
      .error (.chatError "Unexpected error.")) := by
  have hw : waitPacketExpect pongT none (framed t payload rest) =
      if t = pongT then .ok ((t, payload), rest)
      else .error (.chatError "Unexpected error.") := by
    simp only [waitPacketExpect, readFrame_framed]
  by_cases h : t = pongT
  · subst h
    refine ⟨?_, ?_, fun _ => ?_, fun hne => absurd rfl hne⟩ <;>
      simp only [pingStep, hw, eq_self_iff_true, if_true]
  · refine ⟨?_, ?_, fun he => absurd he h, fun _ => ?_⟩ <;>
      simp only [pingStep, hw, if_neg h]

/-- Witness for C7: a pong reply resumes the loop, a wrong-typed reply
fails it. -/
theorem C7_keepalive_ping_witness :
    (pingStep 5 (framed 5 [] [])).sent = [.ping] ∧
    (pingStep 5 (framed 5 [] [])).result = .ok [] ∧
    (pingStep 5 (framed 7 [] [])).result = .error (.chatError "Unexpected error.") :=
  ⟨(C7_keepalive_ping 5 5 [] []).1,
   (C7_keepalive_ping 5 5 [] []).2.2.1 rfl,
   (C7_keepalive_ping 5 7 [] []).2.2.2 (by decide)⟩

/-- C5: contract of `login(character_id)` — if the id is absent from the
stored character list, `login` fails with
`ChatError("no valid characters to login.")` before any packet is sent and
the state is unchanged; if the id is present and the server replies with a
login-ok packet, the active character afterwards is an element of the
stored list whose id equals `character_id`. -/
theorem C5_login_contract (loginOkT authErrT : Nat) (msgOf : List Nat → String)
    (st : ChatState) (character_id : Nat) :
    ((∀ c ∈ st.characters, c.id ≠ character_id) →
      ∀ s, login loginOkT authErrT msgOf st character_id s =
        ⟨st, some (.chatError "no valid characters to login."), []⟩) ∧
    (∀ ch, ch ∈ st.characters → ch.id = character_id →
      ∀ payload rest,
        ∃ c, (login loginOkT authErrT msgOf st character_id
            (framed loginOkT payload rest)).post.character = some c ∧
          c ∈ st.characters ∧ c.id = character_id ∧
          (login loginOkT authErrT msgOf st character_id
            (framed loginOkT payload rest)).failure = none ∧
          (login loginOkT authErrT msgOf st character_id
            (framed loginOkT payload rest)).sent = [.login character_id]) := by
  constructor
  · intro habs s
    have hnone : st.characters.find? (fun c => character_id == c.id) = none := by
      rw [List.find?_eq_none]
      intro c hc
      simp only [beq_iff_eq]
      exact fun he => habs c hc he.symm
    simp only [login, hnone]
  · intro ch hch hid payload rest
    have hsome : (st.characters.find? (fun c => character_id == c.id)).isSome := by
      rw [List.find?_isSome]
      exact ⟨ch, hch, by simp [hid]⟩
    obtain ⟨c, hc⟩ := Option.isSome_iff_exists.mp hsome
    have hcmem : c ∈ st.characters := List.mem_of_find?_eq_some hc
    have hcid : character_id = c.id := by
      have hpc := List.find?_some hc
      simpa [beq_iff_eq] using hpc
    have hwait : waitPacketExpect loginOkT (some authErrT) (framed loginOkT payload rest) =
        .ok ((loginOkT, payload), rest) := by
      simp only [waitPacketExpect, readFrame_framed, eq_self_iff_true, if_true]
    refine ⟨c, ?_, hcmem, hcid.symm, ?_, ?_⟩ <;> simp only [login, hc, hwait]

/-- Witness for C5: id 999 absent from a two-character list fails before
sending; id 42 present plus a login-ok reply makes character 42 active. -/
theorem C5_login_contract_witness :
    login 5 6 (fun _ => "m") ⟨[⟨1, [97]⟩, ⟨42, [98]⟩], none⟩ 999 [] =
      ⟨⟨[⟨1, [97]⟩, ⟨42, [98]⟩], none⟩,
        some (.chatError "no valid characters to login."), []⟩ ∧
    ∃ c, (login 5 6 (fun _ => "m") ⟨[⟨1, [97]⟩, ⟨42, [98]⟩], none⟩ 42
        (framed 5 [] [])).post.character = some c ∧
      c ∈ [Character.mk 1 [97], Character.mk 42 [98]] ∧ c.id = 42 ∧
      (login 5 6 (fun _ => "m") ⟨[⟨1, [97]⟩, ⟨42, [98]⟩], none⟩ 42
        (framed 5 [] [])).failure = none ∧
      (login 5 6 (fun _ => "m") ⟨[⟨1, [97]⟩, ⟨42, [98]⟩], none⟩ 42
        (framed 5 [] [])).sent = [.login 42] :=
  ⟨(C5_login_contract 5 6 (fun _ => "m") ⟨[⟨1, [97]⟩, ⟨42, [98]⟩], none⟩ 999).1
      (by decide) [],
   (C5_login_contract 5 6 (fun _ => "m") ⟨[⟨1, [97]⟩, ⟨42, [98]⟩], none⟩ 42).2
      ⟨42, [98]⟩ (by decide) rfl [] []⟩

/-- C9 (amended): no exit path closes the socket — neither `Chat.__init__`
(connection failure, bad greeting, key-generation failure, server auth
error, success) nor any iteration or exit of the `Chat.start` event loop
(hang-up or error return, `KeyboardInterrupt` break, propagated exception,
or continued polling) ever calls `socket.close`: both `closed` flags are
`false` for every combination of inputs, connection results, readiness
events and server replies. -/
theorem C9_socket_never_closed (seedT charListT authErrT : Nat)
    (seedKeyOf : List Nat → List Nat) (charsOf : List Nat → List Character)
    (msgOf : List Nat → String) (username password : List Nat)
    (dhx nonce : Nat) (connectErr : Option (Nat × String)) (s : List RecvEv)
    (registry : Nat → Option (List Nat → PacketVal)) (events : Nat → Bool)
    (pongT : Nat) (interrupt : Bool) (ev : Option PollEv) (s2 : List RecvEv) :
    (chatInit seedT charListT authErrT seedKeyOf charsOf msgOf username password
      dhx nonce connectErr s).closed = false ∧
    (startIteration registry events pongT interrupt ev s2).1.closed = false := by
  constructor
  · unfold chatInit
    split
    · rfl
    · split
      · rfl
      · split
        · rfl
        · split
          · rfl
          · rfl
          · rfl
  · unfold startIteration
    split
    · rfl
    · split
      · split
        · rfl
        · rfl
      · rfl
      · rfl
      · split
        · rfl
        · rfl

/-- Counterexample to C9 as stated: a handshake failure — a greeting packet
of the wrong type — makes `Chat.__init__` raise
`ChatError("Unexpected error.")` and return control to the caller with the
socket left unclosed. -/
theorem C9_counterexample :
    (chatInit 1 2 3 id (fun _ => []) (fun _ => "") [117] [112] 1 0 none
        (framed 9 [] [])).failure = some (.chatError "Unexpected error.") ∧
    (chatInit 1 2 3 id (fun _ => []) (fun _ => "") [117] [112] 1 0 none
        (framed 9 [] [])).closed = false :=
  ⟨rfl, rfl⟩

/-- Witness for C3 at concrete credentials and key. -/
theorem C3_challenge_plain_aligned_witness :
    (challengePlain 0 [117] [115] [112]).length % 8 = 0 ∧
    _crypt 5 (challengePlain 0 [117] [115] [112]) ≠ .error .invalidLength :=
  ⟨(C3_challenge_plain_aligned 0 [117] [115] [112]).1,
   (C3_challenge_plain_aligned 0 [117] [115] [112]).2 5⟩
